import Mathlib

/-!
Shallow embedding of the nfl-pickems backend (src/server.js) in Lean 4.

Tables are lists of rows; time is an integer (milliseconds since epoch);
JavaScript null scores are represented as `Option Int` and compared with
the JavaScript coercion of null to 0 that the source's `>` performs.
Each Express handler becomes a pure function from the relevant tables,
the current time and the request data to a status code and the updated
tables.
-/

/-- Row of the games table: game_code, week_id, game_date. -/
structure Game where
  game_code : String
  week_id : Nat
  game_date : Int
deriving Repr, DecidableEq

/-- Row of the user_picks table. is_correct is a nullable boolean column. -/
structure UserPick where
  user_id : Nat
  week : Nat
  game_id : String
  picked_team : String
  is_correct : Option Bool
deriving Repr, DecidableEq

/-- Row of the user_week_picks_status table (updated_at is not modelled). -/
structure StatusRow where
  user_id : Nat
  week : Nat
  has_picks : Bool
deriving Repr, DecidableEq

/-- Row of the weeks table. -/
structure WeekRow where
  id : Nat
  start_date : Int
deriving Repr, DecidableEq

/-- Row of the users table. -/
structure UserRow where
  id : Nat
  username : String
deriving Repr, DecidableEq

/-- Row of the game_results table (updated_at is not modelled). -/
structure GameResultRow where
  game_id : String
  week : Nat
  home_team : String
  away_team : String
  home_score : Option Int
  away_score : Option Int
  winner_team : Option String
  game_date : Int
deriving Repr, DecidableEq

/-- A game as returned by the external API: fixture id, team names,
score totals (null when the provider has no score), kickoff date. -/
structure RawGame where
  fixtureId : Nat
  home_name : String
  away_name : String
  home_total : Option Int
  away_total : Option Int
  date : Int
deriving Repr, DecidableEq

/-- The event record built by fetchApiSportsGames from one raw game. -/
structure GameEvent where
  game_code : String
  week : Nat
  home_team : String
  away_team : String
  home_score : Option Int
  away_score : Option Int
  winner_team : Option String
  game_date : Int
deriving Repr, DecidableEq

/-- JavaScript ToNumber of a possibly-null score: null coerces to 0,
as in the comparison game.scores.home.total > game.scores.away.total. -/
def jsNum : Option Int → Int
  | none => 0
  | some n => n

/-- The JavaScript strict-greater comparison the source applies to the two
score totals (null compares as 0). -/
def jsGt (a b : Option Int) : Bool := jsNum b < jsNum a

/-- The mapping inside fetchApiSportsGames: one raw API game to the event
record, including the winner_team ternary from src/server.js lines 46-51. -/
def mkGameEvent (week : Nat) (g : RawGame) : GameEvent :=
  { game_code := toString g.fixtureId
    week := week
    home_team := g.home_name
    away_team := g.away_name
    home_score := g.home_total
    away_score := g.away_total
    winner_team :=
      if jsGt g.home_total g.away_total then some g.home_name
      else if jsGt g.away_total g.home_total then some g.away_name
      else none
    game_date := g.date }

/-- fetchApiSportsGames: the HTTP fetch either yields a list of raw games or
throws; the catch block logs and returns the empty list. -/
def fetchApiSportsGames (week : Nat) (raw : Except Unit (List RawGame)) :
    List GameEvent :=
  match raw with
  | .error _ => []
  | .ok gs => gs.map (mkGameEvent week)

/-- The ON CONFLICT (game_id) DO UPDATE branch of the game_results upsert:
only home_score, away_score, winner_team and game_date are overwritten
(week, home_team and away_team keep their stored values). -/
def applyResultUpdate (r : GameResultRow) (e : GameEvent) : GameResultRow :=
  { r with
    home_score := e.home_score
    away_score := e.away_score
    winner_team := e.winner_team
    game_date := e.game_date }

/-- The row inserted by the game_results upsert when no row conflicts. -/
def rowOfEvent (e : GameEvent) : GameResultRow :=
  { game_id := e.game_code
    week := e.week
    home_team := e.home_team
    away_team := e.away_team
    home_score := e.home_score
    away_score := e.away_score
    winner_team := e.winner_team
    game_date := e.game_date }

/-- The INSERT ... ON CONFLICT (game_id) DO UPDATE upsert on game_results.
The unique key on game_id means at most one row can conflict; the first
matching row is updated, otherwise the new row is appended. -/
def upsertGameResult : List GameResultRow → GameEvent → List GameResultRow
  | [], e => [rowOfEvent e]
  | r :: t, e =>
    if r.game_id == e.game_code then applyResultUpdate r e :: t
    else r :: upsertGameResult t e

/-- SQL TRIM: drop the space characters at both ends of a character list. -/
def trimChars (l : List Char) : List Char :=
  ((l.dropWhile (fun c => c = ' ')).reverse.dropWhile (fun c => c = ' ')).reverse

/-- LOWER(TRIM(x)) applied to a team name before comparison. -/
def normTeam (s : String) : String := ⟨(trimChars s.data).map Char.toLower⟩

/-- The user_picks update run for one event: guarded by the JavaScript
truthiness of event.winner_team (null and the empty string are falsy), it
sets is_correct on every pick of that game to the boolean result of the
normalized comparison with the winner. -/
def updatePicksForEvent (picksT : List UserPick) (e : GameEvent) :
    List UserPick :=
  match e.winner_team with
  | none => picksT
  | some w =>
    if w == "" then picksT
    else
      picksT.map (fun p =>
        if p.game_id == e.game_code
        then { p with is_correct := some (normTeam p.picked_team == normTeam w) }
        else p)

/-- The database state touched by the ingestion job. -/
structure DbState where
  results : List GameResultRow
  picks : List UserPick
deriving Repr, DecidableEq

/-- The two queries the job runs for one fetched event. -/
def processEvent (st : DbState) (e : GameEvent) : DbState :=
  { results := upsertGameResult st.results e
    picks := updatePicksForEvent st.picks e }

/-- The inner loop of updateGameResults over one week's events. A database
write that throws (modelled by the oracle dbFail) propagates out of the
loop, so the remaining events are not processed; the flag records whether
the loop finished. -/
def runEvents (dbFail : GameEvent → Bool) (st : DbState) :
    List GameEvent → DbState × Bool
  | [] => (st, true)
  | e :: es =>
    if dbFail e then (st, false)
    else runEvents dbFail (processEvent st e) es

/-- The outer loop of updateGameResults over a list of week numbers. An
exception escaping the inner loop also aborts the outer loop (the single
try/catch wraps both loops). -/
def runWeeks (fetched : Nat → Except Unit (List RawGame))
    (dbFail : GameEvent → Bool) (st : DbState) :
    List Nat → DbState × Bool
  | [] => (st, true)
  | w :: ws =>
    match runEvents dbFail st (fetchApiSportsGames w (fetched w)) with
    | (st2, true) => runWeeks fetched dbFail st2 ws
    | (st2, false) => (st2, false)

/-- updateGameResults: iterate weeks 1..18, fetch each week, upsert each
event and update picks; the catch block logs, so the returned flag tells
whether the run completed without a database error. -/
def updateGameResults (fetched : Nat → Except Unit (List RawGame))
    (dbFail : GameEvent → Bool) (st : DbState) : DbState × Bool :=
  runWeeks fetched dbFail st (List.range' 1 18)

/-- All events of the season in processing order: weeks 1..18, each fetch
converted by fetchApiSportsGames (a failed fetch contributes no events). -/
def seasonEvents (fetched : Nat → Except Unit (List RawGame)) :
    List GameEvent :=
  ((List.range' 1 18).map (fun w => fetchApiSportsGames w (fetched w))).flatten

/-- SELECT MIN(game_date) FROM games WHERE week_id = $1: none when the week
has no games (SQL MIN over the empty set is NULL). -/
def minGameDate (games : List Game) (week : Nat) : Option Int :=
  match (games.filter (fun g => g.week_id == week)).map (fun g => g.game_date) with
  | [] => none
  | d :: ds => some (ds.foldl min d)

/-- The user_picks upsert of one (gameId, pickedTeam) entry: on conflict on
(user_id, week, game_id) only picked_team is overwritten (is_correct is
kept); a fresh row has is_correct NULL. -/
def upsertUserPick : List UserPick → Nat → Nat → String → String → List UserPick
  | [], uid, w, gid, team => [⟨uid, w, gid, team, none⟩]
  | p :: t, uid, w, gid, team =>
    if p.user_id == uid && p.week == w && p.game_id == gid
    then { p with picked_team := team } :: t
    else p :: upsertUserPick t uid w gid team

/-- The user_week_picks_status upsert run by save-picks: insert or update
the (user_id, week) row with has_picks = TRUE. -/
def upsertStatusTrue : List StatusRow → Nat → Nat → List StatusRow
  | [], uid, w => [⟨uid, w, true⟩]
  | r :: t, uid, w =>
    if r.user_id == uid && r.week == w then { r with has_picks := true } :: t
    else r :: upsertStatusTrue t uid w

/-- Result of the save-picks handler: HTTP status plus the two tables it
may write. -/
structure SavePicksResult where
  status : Nat
  picks : List UserPick
  statusTable : List StatusRow
deriving Repr, DecidableEq

/-- POST /save-picks: reject 400 when the week has no games, reject 403
when now is at or past the week's earliest game_date, otherwise upsert
every submitted pick and set the week status row to has_picks TRUE. -/
def savePicks (games : List Game) (picksT : List UserPick)
    (statusT : List StatusRow) (now : Int) (userId week : Nat)
    (picks : List (String × String)) : SavePicksResult :=
  match minGameDate games week with
  | none => ⟨400, picksT, statusT⟩
  | some firstGame =>
    if firstGame ≤ now then ⟨403, picksT, statusT⟩
    else
      ⟨200,
       picks.foldl (fun t kv => upsertUserPick t userId week kv.1 kv.2) picksT,
       upsertStatusTrue statusT userId week⟩

/-- GET /picks-status: status 200 and the stored flag of the first matching
row, or false when no row matches. -/
def picksStatusGet (statusT : List StatusRow) (uid w : Nat) : Nat × Bool :=
  match statusT.filter (fun r => r.user_id == uid && r.week == w) with
  | [] => (200, false)
  | r :: _ => (200, r.has_picks)

/-- Result of the create-user handler. -/
structure CreateUserResult where
  status : Nat
  users : List UserRow
  body : Option UserRow
deriving Repr, DecidableEq

/-- POST /create-user: 409 and no write when a row with the exact username
exists, otherwise insert (newId models the serial id the database assigns)
and return 201 with the new row. -/
def createUser (users : List UserRow) (username : String) (newId : Nat) :
    CreateUserResult :=
  if (users.filter (fun u => u.username == username)).length > 0 then
    ⟨409, users, none⟩
  else
    ⟨201, users ++ [⟨newId, username⟩], some ⟨newId, username⟩⟩

/-- The per-user aggregate of GET /user-grand-total: the LEFT JOIN with
up.week <= $1 grouped by user with SUM(CASE WHEN is_correct = TRUE THEN 1
ELSE 0 END) counts, for one user, the picks of weeks up to the given week
whose is_correct is TRUE. -/
def grandTotal (picksT : List UserPick) (uid week : Nat) : Nat :=
  picksT.countP (fun p =>
    p.user_id == uid && decide (p.week ≤ week) && p.is_correct == some true)

/-- The loop of GET /current-week: start from the first row's id, advance
while now is at or past the row's start_date, break at the first future
row. -/
def currentWeekLoop (now : Int) : Nat → List WeekRow → Nat
  | cur, [] => cur
  | cur, r :: rs =>
    if r.start_date ≤ now then currentWeekLoop now r.id rs else cur

/-- GET /current-week over the rows ordered by start_date ascending: null
when there are no weeks, else run the scan loop. -/
def currentWeek (now : Int) (rows : List WeekRow) : Option Nat :=
  match rows with
  | [] => none
  | r :: _ => some (currentWeekLoop now r.id rows)

/-- Modelled from the spec wording for the current-week refinement claim:
the id of the latest week (last in the ascending order) whose start_date
is not after now; the first week's id when every week is in the future;
none when no weeks exist. -/
def currentWeekSpec (now : Int) (rows : List WeekRow) : Option Nat :=
  match rows with
  | [] => none
  | r :: _ =>
    some ((((rows.filter (fun x => decide (x.start_date ≤ now))).getLast?).map
      (fun x => x.id)).getD r.id)

/-! Theorems. -/

/-- C2: evaluation of the winner ternary at a game whose away score is
missing while the home score is positive. JavaScript coerces the null
score to 0, so the code stores the home team as winner_team although one
score is missing, contradicting the stated requirement that a missing
score always yields a null winner. -/
theorem mkGameEvent_missing_score_winner :
    (mkGameEvent 5 ⟨101, "Chiefs", "Jets", some 7, none, 0⟩).winner_team =
      some "Chiefs" ∧
    (mkGameEvent 5 ⟨101, "Chiefs", "Jets", some 7, none, 0⟩).away_score =
      none := by
  decide

/-- C3 counterexample: the job run on a game won by the Chiefs rewrites a
pick of the Jets from is_correct = NULL to is_correct = false, so the job
does set is_correct to false on a non-matching pick instead of leaving
it unchanged. -/
theorem updatePicksForEvent_sets_false_cex :
    updatePicksForEvent [⟨1, 1, "101", "Jets", none⟩]
        (mkGameEvent 1 ⟨101, "Chiefs", "Jets", some 24, some 10, 0⟩) =
      [⟨1, 1, "101", "Jets", some false⟩] := by
  decide

/-- C3 (amended): when a fetched game has a truthy winner, the job sets
is_correct on every pick of that game to the boolean result of the
normalized comparison with the winner, true for matching picks and false
for non-matching ones, and leaves picks of other games unchanged; when
the winner is null the picks table is untouched. -/
theorem updatePicksForEvent_assigns_match (picksT : List UserPick)
    (e : GameEvent) (w : String) (hw : e.winner_team = some w)
    (hne : w ≠ "") :
    (∀ i : Nat, (updatePicksForEvent picksT e)[i]? =
      (picksT[i]?).map (fun p =>
        if p.game_id == e.game_code
        then { p with is_correct := some (normTeam p.picked_team == normTeam w) }
        else p)) ∧
    (∀ e2 : GameEvent, e2.winner_team = none →
      updatePicksForEvent picksT e2 = picksT) := by
  constructor
  · intro i
    have hb : (w == "") = false := by
      simpa using hne
    unfold updatePicksForEvent
    rw [hw]
    simp [hb, List.getElem?_map]
  · intro e2 h2
    unfold updatePicksForEvent
    rw [h2]

/-- Witness for C3 (amended) at a concrete non-matching pick. -/
theorem updatePicksForEvent_assigns_match_witness :
    (updatePicksForEvent [⟨1, 1, "101", "Jets", none⟩]
        (mkGameEvent 1 ⟨101, "Chiefs", "Jets", some 24, some 10, 0⟩))[0]? =
      some ⟨1, 1, "101", "Jets", some false⟩ := by
  have h := (updatePicksForEvent_assigns_match [⟨1, 1, "101", "Jets", none⟩]
    (mkGameEvent 1 ⟨101, "Chiefs", "Jets", some 24, some 10, 0⟩) "Chiefs"
    (by decide) (by decide)).1 0
  rw [h]
  decide

/-- C5: for a fixed user and a fixed picks table, the grand total of the
user-grand-total endpoint is monotone in the queried week. -/
theorem grandTotal_monotone (picksT : List UserPick) (uid w1 w2 : Nat)
    (h : w1 ≤ w2) : grandTotal picksT uid w1 ≤ grandTotal picksT uid w2 := by
  unfold grandTotal
  refine List.countP_mono_left fun p _ hp => ?_
  simp only [Bool.and_eq_true, decide_eq_true_eq] at hp ⊢
  exact ⟨⟨hp.1.1, le_trans hp.1.2 h⟩, hp.2⟩

/-- Witness for C5 at a concrete picks table and weeks 1 and 2. -/
theorem grandTotal_monotone_witness :
    grandTotal [⟨1, 1, "g1", "a", some true⟩, ⟨1, 2, "g2", "b", some true⟩] 1 1 ≤
    grandTotal [⟨1, 1, "g1", "a", some true⟩, ⟨1, 2, "g2", "b", some true⟩] 1 2 :=
  grandTotal_monotone _ 1 1 2 (by decide)

/-- C9: when no user_week_picks_status row matches the requested user and
week, picks-status answers 200 with hasPicks = false. -/
theorem picksStatusGet_missing (statusT : List StatusRow) (uid w : Nat)
    (h : ∀ r ∈ statusT, ¬(r.user_id = uid ∧ r.week = w)) :
    picksStatusGet statusT uid w = (200, false) := by
  unfold picksStatusGet
  have hf : statusT.filter (fun r => r.user_id == uid && r.week == w) = [] := by
    rw [List.filter_eq_nil_iff]
    intro r hr
    simp only [Bool.and_eq_true, beq_iff_eq, decide_eq_true_eq]
    exact fun hc => h r hr hc
  rw [hf]

/-- Witness for C9 on a table whose only row is for another user and week. -/
theorem picksStatusGet_missing_witness :
    picksStatusGet [⟨2, 3, true⟩] 1 1 = (200, false) :=
  picksStatusGet_missing [⟨2, 3, true⟩] 1 1 (by decide)

/-- Helper: the game_results upsert is idempotent on any table. -/
lemma upsertGameResult_idem_aux (t : List GameResultRow) (e : GameEvent) :
    upsertGameResult (upsertGameResult t e) e = upsertGameResult t e := by
  induction t with
  | nil => simp [upsertGameResult, rowOfEvent, applyResultUpdate]
  | cons r t ih =>
    by_cases h : (r.game_id == e.game_code) = true
    · simp [upsertGameResult, h, applyResultUpdate]
    · simp [upsertGameResult, h, ih]

/-- Helper: with at most one stored row for the key, the upsert leaves
exactly one row for the key. -/
lemma upsertGameResult_countP (t : List GameResultRow) (e : GameEvent)
    (hkey : t.countP (fun r => r.game_id == e.game_code) ≤ 1) :
    (upsertGameResult t e).countP (fun r => r.game_id == e.game_code) = 1 := by
  induction t with
  | nil => simp [upsertGameResult, rowOfEvent, List.countP_cons]
  | cons r t ih =>
    rw [List.countP_cons] at hkey
    by_cases h : (r.game_id == e.game_code) = true
    · have ht : t.countP (fun r => r.game_id == e.game_code) = 0 := by
        rw [if_pos h] at hkey
        omega
      simp [upsertGameResult, h, List.countP_cons, applyResultUpdate, ht]
    · have ht := ih (by rw [if_neg h] at hkey; omega)
      simp [upsertGameResult, h, List.countP_cons, ht]

/-- C6: upserting the same fetched game twice is idempotent: given the
unique-key invariant (at most one game_results row per game_id), after
the first upsert there is exactly one row for the key and the second
upsert returns the table unchanged. -/
theorem upsertGameResult_idempotent (t : List GameResultRow) (e : GameEvent)
    (hkey : t.countP (fun r => r.game_id == e.game_code) ≤ 1) :
    upsertGameResult (upsertGameResult t e) e = upsertGameResult t e ∧
    (upsertGameResult t e).countP (fun r => r.game_id == e.game_code) = 1 :=
  ⟨upsertGameResult_idem_aux t e, upsertGameResult_countP t e hkey⟩

/-- Witness for C6 at a concrete event over the empty table. -/
theorem upsertGameResult_idempotent_witness :
    upsertGameResult (upsertGameResult []
        (mkGameEvent 1 ⟨101, "A", "B", some 3, some 2, 5⟩))
        (mkGameEvent 1 ⟨101, "A", "B", some 3, some 2, 5⟩) =
      upsertGameResult [] (mkGameEvent 1 ⟨101, "A", "B", some 3, some 2, 5⟩) ∧
    (upsertGameResult [] (mkGameEvent 1 ⟨101, "A", "B", some 3, some 2, 5⟩)).countP
        (fun r => r.game_id ==
          (mkGameEvent 1 ⟨101, "A", "B", some 3, some 2, 5⟩).game_code) = 1 :=
  upsertGameResult_idempotent [] (mkGameEvent 1 ⟨101, "A", "B", some 3, some 2, 5⟩)
    (by decide)

/-- Helper: the duplicate check of create-user finds a row exactly when the
username is already present (case-sensitive equality). -/
lemma createUser_mem_key (users : List UserRow) (username : String) :
    ((users.filter (fun u => u.username == username)).length > 0) ↔
      username ∈ users.map (fun u => u.username) := by
  constructor
  · intro h
    obtain ⟨u, hu⟩ := List.exists_mem_of_ne_nil _ (List.length_pos_iff_ne_nil.mp h)
    have hm := List.mem_filter.mp hu
    exact List.mem_map.mpr ⟨u, hm.1, by simpa using hm.2⟩
  · intro h
    obtain ⟨u, hu, he⟩ := List.mem_map.mp h
    apply List.length_pos_iff_ne_nil.mpr
    intro hnil
    have := List.filter_eq_nil_iff.mp hnil u hu
    simp [he] at this

/-- C8: create-user with an already existing username answers 409 and
leaves the users table unchanged; with a fresh username it inserts the new
row and answers 201 with it; in particular creating alice twice yields
201 then 409. -/
theorem createUser_spec (users : List UserRow) (username : String) (n1 : Nat) :
    ((username ∈ users.map (fun u => u.username)) →
      createUser users username n1 = ⟨409, users, none⟩) ∧
    ((username ∉ users.map (fun u => u.username)) →
      createUser users username n1 =
        ⟨201, users ++ [⟨n1, username⟩], some ⟨n1, username⟩⟩) ∧
    (∀ n2 : Nat, username ∉ users.map (fun u => u.username) →
      (createUser users username n1).status = 201 ∧
      (createUser (createUser users username n1).users username n2).status =
        409) := by
  refine ⟨?_, ?_, ?_⟩
  · intro hmem
    unfold createUser
    rw [if_pos ((createUser_mem_key users username).mpr hmem)]
  · intro hmem
    unfold createUser
    rw [if_neg (fun hc => hmem ((createUser_mem_key users username).mp hc))]
  · intro n2 hmem
    have h1 : createUser users username n1 =
        ⟨201, users ++ [⟨n1, username⟩], some ⟨n1, username⟩⟩ := by
      unfold createUser
      rw [if_neg (fun hc => hmem ((createUser_mem_key users username).mp hc))]
    refine ⟨by rw [h1], ?_⟩
    rw [h1]
    have hm2 : username ∈ ((users ++ [(⟨n1, username⟩ : UserRow)]).map
        (fun u => u.username)) := by
      simp
    show (createUser (users ++ [⟨n1, username⟩]) username n2).status = 409
    unfold createUser
    rw [if_pos ((createUser_mem_key _ username).mpr hm2)]

/-- Witness for C8: creating alice twice on the empty table gives 201 then
409. -/
theorem createUser_spec_witness :
    (createUser [] "alice" 1).status = 201 ∧
    (createUser (createUser [] "alice" 1).users "alice" 2).status = 409 :=
  (createUser_spec [] "alice" 1).2.2 2 (by decide)

/-- Helper: on rows sorted ascending by start_date, the scan loop returns
the id of the last row whose start_date is at most now, defaulting to its
initial accumulator. -/
lemma currentWeekLoop_eq (now : Int) (l : List WeekRow) :
    ∀ cur : Nat, l.Pairwise (fun a b => a.start_date ≤ b.start_date) →
      currentWeekLoop now cur l =
        (((l.filter (fun x => decide (x.start_date ≤ now))).getLast?).map
          (fun x => x.id)).getD cur := by
  induction l with
  | nil => intro cur _; simp [currentWeekLoop]
  | cons r rs ih =>
    intro cur hs
    have hr := (List.pairwise_cons.mp hs).1
    have hrs := (List.pairwise_cons.mp hs).2
    by_cases hle : r.start_date ≤ now
    · have hstep : currentWeekLoop now cur (r :: rs) =
          currentWeekLoop now r.id rs := by
        simp [currentWeekLoop, hle]
      rw [hstep, ih r.id hrs]
      cases hfil : rs.filter (fun x => decide (x.start_date ≤ now)) with
      | nil => simp [List.filter_cons, hle, hfil]
      | cons b bs =>
        cases hgl : (b :: bs).getLast? with
        | none => exact absurd (List.getLast?_eq_none_iff.mp hgl) (by simp)
        | some y =>
          simp [List.filter_cons, hle, hfil, List.getLast?_cons_cons, hgl]
    · have hfil : (r :: rs).filter (fun x => decide (x.start_date ≤ now)) = [] := by
        rw [List.filter_eq_nil_iff]
        intro x hx
        rcases List.mem_cons.mp hx with rfl | hx2
        · simp [hle]
        · simp only [decide_eq_true_eq]
          intro hcon
          exact hle (le_trans (hr x hx2) hcon)
      simp [currentWeekLoop, hle, hfil]

/-- C4: on the weeks rows ordered ascending by start_date (as the query
orders them), the current-week handler returns exactly the spec value:
the id of the latest week whose start_date is not after now, the first
week when all weeks are in the future, and null when no weeks exist. -/
theorem currentWeek_matches_spec (now : Int) (rows : List WeekRow)
    (hs : rows.Pairwise (fun a b => a.start_date ≤ b.start_date)) :
    currentWeek now rows = currentWeekSpec now rows := by
  cases rows with
  | nil => rfl
  | cons r rs =>
    show some (currentWeekLoop now r.id (r :: rs)) = _
    rw [currentWeekLoop_eq now (r :: rs) r.id hs]
    rfl

/-- Witness for C4 on a concrete sorted weeks table. -/
theorem currentWeek_matches_spec_witness :
    currentWeek 50 [⟨1, 10⟩, ⟨2, 40⟩, ⟨3, 90⟩] =
      currentWeekSpec 50 [⟨1, 10⟩, ⟨2, 40⟩, ⟨3, 90⟩] :=
  currentWeek_matches_spec 50 [⟨1, 10⟩, ⟨2, 40⟩, ⟨3, 90⟩] (by decide)

/-- Helper: the inner event loop processes the prefix of events before the
first failing write and reports whether every write succeeded. -/
lemma runEvents_eq (dbFail : GameEvent → Bool) (st : DbState)
    (l : List GameEvent) :
    runEvents dbFail st l =
      ((l.takeWhile (fun e => !dbFail e)).foldl processEvent st,
       l.all (fun e => !dbFail e)) := by
  induction l generalizing st with
  | nil => simp [runEvents]
  | cons e es ih =>
    by_cases h : dbFail e = true
    · simp [runEvents, h, List.takeWhile_cons, List.all_cons]
    · have h2 : dbFail e = false := by simpa using h
      simp [runEvents, h2, List.takeWhile_cons, List.all_cons, ih]

/-- Helper: splitting the inner event loop over an append. -/
lemma runEvents_append (dbFail : GameEvent → Bool) (st : DbState)
    (l1 l2 : List GameEvent) :
    runEvents dbFail st (l1 ++ l2) =
      (if (runEvents dbFail st l1).2
       then runEvents dbFail (runEvents dbFail st l1).1 l2
       else runEvents dbFail st l1) := by
  induction l1 generalizing st with
  | nil => simp [runEvents]
  | cons e es ih =>
    by_cases h : dbFail e = true
    · simp [runEvents, h]
    · have h2 : dbFail e = false := by simpa using h
      simp [runEvents, h2, ih]

/-- Helper: the week loop equals the event loop over the concatenation of
the weekly fetches. -/
lemma runWeeks_eq (fetched : Nat → Except Unit (List RawGame))
    (dbFail : GameEvent → Bool) (st : DbState) (ws : List Nat) :
    runWeeks fetched dbFail st ws =
      runEvents dbFail st
        ((ws.map (fun w => fetchApiSportsGames w (fetched w))).flatten) := by
  induction ws generalizing st with
  | nil => simp [runWeeks, runEvents]
  | cons w ws ih =>
    rw [List.map_cons, List.flatten_cons, runEvents_append]
    unfold runWeeks
    cases hrun : runEvents dbFail st (fetchApiSportsGames w (fetched w)) with
    | mk s flag =>
      cases flag
      · simp [hrun]
      · simp [hrun, ih]

/-- C7 counterexample: with a season where week 1 fetches two games and the
write of the first one fails, the run ends with an empty results table and
a failure flag although the second game of the same week was fetched and
its own write would have succeeded; the run aborted instead of continuing
with the remaining games. -/
theorem updateGameResults_abort_cex :
    updateGameResults
        (fun w => if w = 1 then Except.ok
            [⟨101, "A", "B", some 3, some 2, 5⟩,
             ⟨102, "C", "D", some 1, some 0, 6⟩]
          else Except.ok [])
        (fun e => e.game_code == "101") ⟨[], []⟩ = (⟨[], []⟩, false) ∧
    (fun e : GameEvent => e.game_code == "101")
        (mkGameEvent 1 ⟨102, "C", "D", some 1, some 0, 6⟩) = false := by
  decide

/-- C7 (amended): a failed weekly fetch contributes no events and the run
continues with the next week, but the run processes exactly the season
events up to the first failing database write and stops there: the final
state folds the event step over that prefix, and the success flag holds
exactly when every write succeeded. -/
theorem updateGameResults_run_spec (fetched : Nat → Except Unit (List RawGame))
    (dbFail : GameEvent → Bool) (st : DbState) :
    updateGameResults fetched dbFail st =
      (((seasonEvents fetched).takeWhile (fun e => !dbFail e)).foldl
          processEvent st,
       (seasonEvents fetched).all (fun e => !dbFail e)) ∧
    (∀ w : Nat, fetched w = Except.error () →
      fetchApiSportsGames w (fetched w) = []) := by
  constructor
  · unfold updateGameResults seasonEvents
    rw [runWeeks_eq, runEvents_eq]
  · intro w hw
    rw [hw]
    rfl

/-- Witness for C7 (amended): a season whose third week errors on fetch
while every write succeeds runs to completion with an empty state. -/
theorem updateGameResults_run_spec_witness :
    updateGameResults (fun w => if w = 3 then Except.error () else Except.ok [])
        (fun _ => false) ⟨[], []⟩ = (⟨[], []⟩, true) ∧
    fetchApiSportsGames 3
        ((fun w : Nat => if w = 3 then Except.error () else Except.ok []) 3) =
      [] := by
  refine ⟨?_, (updateGameResults_run_spec
      (fun w => if w = 3 then Except.error () else Except.ok [])
      (fun _ => false) ⟨[], []⟩).2 3 rfl⟩
  rw [(updateGameResults_run_spec
      (fun w => if w = 3 then Except.error () else Except.ok [])
      (fun _ => false) ⟨[], []⟩).1]
  decide

/-- Helper: being below a left fold of min means being below the seed and
every folded element. -/
lemma lt_foldl_min (now : Int) : ∀ (ds : List Int) (d : Int),
    (now < ds.foldl min d ↔ now < d ∧ ∀ x ∈ ds, now < x)
  | [], d => by simp
  | x :: ds, d => by
    rw [List.foldl_cons, lt_foldl_min now ds (min d x)]
    simp only [lt_min_iff, List.mem_cons]
    constructor
    · rintro ⟨⟨h1, h2⟩, h3⟩
      refine ⟨h1, fun y hy => ?_⟩
      rcases hy with rfl | hy
      · exact h2
      · exact h3 y hy
    · rintro ⟨h1, h2⟩
      exact ⟨⟨h1, h2 x (Or.inl rfl)⟩, fun y hy => h2 y (Or.inr hy)⟩

/-- Helper: MIN(game_date) is NULL exactly when the week has no games. -/
lemma minGameDate_none_iff (games : List Game) (w : Nat) :
    minGameDate games w = none ↔
      games.filter (fun g => g.week_id == w) = [] := by
  cases hf : games.filter (fun g => g.week_id == w) with
  | nil => simp [minGameDate, hf]
  | cons g gs => simp [minGameDate, hf]

/-- Helper: now is strictly below MIN(game_date) of a week exactly when it
is strictly below every game date of that week. -/
lemma minGameDate_lt_iff (games : List Game) (w : Nat) (now m : Int)
    (hm : minGameDate games w = some m) :
    (now < m ↔ ∀ g ∈ games, g.week_id = w → now < g.game_date) := by
  unfold minGameDate at hm
  cases hl : (games.filter (fun g => g.week_id == w)).map
      (fun g => g.game_date) with
  | nil => rw [hl] at hm; exact absurd hm (by simp)
  | cons d ds =>
    rw [hl] at hm
    have hm2 : m = ds.foldl min d := by
      injection hm with h
      exact h.symm
    rw [hm2, lt_foldl_min]
    constructor
    · rintro ⟨h1, h2⟩ g hg hgw
      have hmem : g.game_date ∈ (games.filter (fun g => g.week_id == w)).map
          (fun g => g.game_date) :=
        List.mem_map.mpr ⟨g, List.mem_filter.mpr ⟨hg, by simp [hgw]⟩, rfl⟩
      rw [hl] at hmem
      rcases List.mem_cons.mp hmem with he | hmem2
      · exact he ▸ h1
      · exact h2 _ hmem2
    · intro h
      have hall : ∀ x ∈ (d :: ds), now < x := by
        rw [← hl]
        intro x hx
        obtain ⟨g, hg, rfl⟩ := List.mem_map.mp hx
        have hgf := List.mem_filter.mp hg
        exact h g hgf.1 (by simpa using hgf.2)
      exact ⟨hall d (List.mem_cons_self d ds),
        fun x hx => hall x (List.mem_cons_of_mem d hx)⟩

/-- C1: for a week with no games, save-picks answers 400 and writes
nothing; for a week with at least one game it answers 200 exactly when
now is strictly before every game date of the week (equivalently before
the minimum), in which case the picks are upserted and the status row set,
and otherwise it answers 403 and writes nothing. -/
theorem savePicks_lock_spec (games : List Game) (picksT : List UserPick)
    (statusT : List StatusRow) (now : Int) (uid w : Nat)
    (ps : List (String × String)) :
    ((games.filter (fun g => g.week_id == w)) = [] →
      savePicks games picksT statusT now uid w ps = ⟨400, picksT, statusT⟩) ∧
    ((games.filter (fun g => g.week_id == w)) ≠ [] →
      (((savePicks games picksT statusT now uid w ps).status = 200) ↔
        (∀ g ∈ games, g.week_id = w → now < g.game_date)) ∧
      ((savePicks games picksT statusT now uid w ps).status = 200 →
        savePicks games picksT statusT now uid w ps =
          ⟨200, ps.foldl (fun t kv => upsertUserPick t uid w kv.1 kv.2) picksT,
           upsertStatusTrue statusT uid w⟩) ∧
      ((savePicks games picksT statusT now uid w ps).status ≠ 200 →
        savePicks games picksT statusT now uid w ps =
          ⟨403, picksT, statusT⟩)) := by
  constructor
  · intro hf
    have hnone : minGameDate games w = none := (minGameDate_none_iff games w).mpr hf
    unfold savePicks
    rw [hnone]
  · intro hf
    obtain ⟨m, hm⟩ : ∃ m, minGameDate games w = some m := by
      cases h : minGameDate games w with
      | none => exact absurd ((minGameDate_none_iff games w).mp h) hf
      | some m => exact ⟨m, rfl⟩
    have hiff := minGameDate_lt_iff games w now m hm
    by_cases hle : m ≤ now
    · have hres : savePicks games picksT statusT now uid w ps =
          ⟨403, picksT, statusT⟩ := by
        unfold savePicks
        rw [hm]
        dsimp only
        rw [if_pos hle]
      refine ⟨?_, ?_, fun _ => hres⟩
      · rw [hres]
        constructor
        · intro h
          simp at h
        · intro hall
          exact absurd (hiff.mpr hall) (not_lt.mpr hle)
      · intro h200
        rw [hres] at h200
        simp at h200
    · have hres : savePicks games picksT statusT now uid w ps =
          ⟨200, ps.foldl (fun t kv => upsertUserPick t uid w kv.1 kv.2) picksT,
           upsertStatusTrue statusT uid w⟩ := by
        unfold savePicks
        rw [hm]
        dsimp only
        rw [if_neg hle]
      refine ⟨?_, fun _ => hres, ?_⟩
      · rw [hres]
        constructor
        · intro _
          exact hiff.mp (not_le.mp hle)
        · intro _
          rfl
      · intro hne
        rw [hres] at hne
        simp at hne

/-- Witness for C1: before the earliest game save-picks is 200, at or after
it 403, and a week without games 400, all on a concrete games table. -/
theorem savePicks_lock_spec_witness :
    (savePicks [⟨"g1", 1, 100⟩] [] [] 50 1 1 [("g1", "Chiefs")]).status = 200 ∧
    savePicks [⟨"g1", 1, 100⟩] [] [] 200 1 1 [] = ⟨403, [], []⟩ ∧
    savePicks [⟨"g1", 1, 100⟩] [] [] 50 1 2 [] = ⟨400, [], []⟩ := by
  refine ⟨((savePicks_lock_spec [⟨"g1", 1, 100⟩] [] [] 50 1 1
      [("g1", "Chiefs")]).2 (by decide)).1.mpr (by decide), ?_, ?_⟩
  · exact ((savePicks_lock_spec [⟨"g1", 1, 100⟩] [] [] 200 1 1 []).2
      (by decide)).2.2 (by decide)
  · exact (savePicks_lock_spec [⟨"g1", 1, 100⟩] [] [] 50 1 2 []).1 (by decide)

/-- Helper: after the status upsert of save-picks, picks-status for the
same user and week reads hasPicks = true. -/
lemma picksStatusGet_upsertTrue (t : List StatusRow) (uid w : Nat) :
    picksStatusGet (upsertStatusTrue t uid w) uid w = (200, true) := by
  induction t with
  | nil => simp [upsertStatusTrue, picksStatusGet, List.filter_cons]
  | cons r t ih =>
    by_cases h : (r.user_id == uid && r.week == w) = true
    · simp [upsertStatusTrue, h, picksStatusGet, List.filter_cons]
    · have h2 : (r.user_id == uid && r.week == w) = false := by simpa using h
      unfold picksStatusGet at ih ⊢
      simp only [upsertStatusTrue, h2, Bool.false_eq_true, if_false]
      rw [List.filter_cons, if_neg (by simp [h2])]
      exact ih

/-- C10: an accepted save-picks with an empty picks object writes no
user_picks row but still upserts the status row to has_picks TRUE, so a
subsequent picks-status read answers true although the user has no picks
for the week. -/
theorem savePicks_empty_picks (games : List Game) (picksT : List UserPick)
    (statusT : List StatusRow) (now : Int) (uid w : Nat) (m : Int)
    (hm : minGameDate games w = some m) (hnow : now < m) :
    savePicks games picksT statusT now uid w [] =
      ⟨200, picksT, upsertStatusTrue statusT uid w⟩ ∧
    picksStatusGet (savePicks games picksT statusT now uid w []).statusTable
        uid w = (200, true) := by
  have hres : savePicks games picksT statusT now uid w [] =
      ⟨200, picksT, upsertStatusTrue statusT uid w⟩ := by
    unfold savePicks
    rw [hm]
    dsimp only
    rw [if_neg (not_le.mpr hnow)]
    rfl
  refine ⟨hres, ?_⟩
  rw [hres]
  exact picksStatusGet_upsertTrue statusT uid w

/-- Witness for C10 on a concrete table: the accepted empty submission
leaves the picks table empty while picks-status answers true. -/
theorem savePicks_empty_picks_witness :
    savePicks [⟨"g1", 1, 100⟩] [] [] 50 1 1 [] =
      ⟨200, [], upsertStatusTrue [] 1 1⟩ ∧
    picksStatusGet (savePicks [⟨"g1", 1, 100⟩] [] [] 50 1 1 []).statusTable
        1 1 = (200, true) :=
  savePicks_empty_picks [⟨"g1", 1, 100⟩] [] [] 50 1 1 100 (by decide) (by decide)
